import Mathlib

/-!
Verification of the reactive task store of the Angular 16 task-manager demo
(`src/app/services/task.service.ts`), shallowly embedded in Lean 4.

The store holds an ordered list of tasks and an active filter, and exposes
derived views (`tasks`, `filteredTasks`, `totalCount`, `completedCount`) and
mutation operations (`addTask`, `updateTask`, `deleteTask`, `toggleTask`,
`updateFilter`).  JavaScript `Date` values are modelled as millisecond
timestamps; TypeScript option-ness (`field?:`) and `Partial<...>` records are
modelled with `Option`:  in a partial record, `none` means the key is absent,
`some v` means the key is present with value `v`.  For optional fields of the
underlying type the present value is itself an `Option` (so `some none`
models a key that is present but carries `undefined`), matching the spread
semantics of `{ ...current, ...updates }`, where a present key overwrites
even when its value is `undefined`.
-/

namespace TaskStore

/-- `TaskPriority` enum from `src/app/models/task.model.ts`
(`LOW = 'low'`, `MEDIUM = 'medium'`, `HIGH = 'high'`; all values truthy). -/
inductive TaskPriority where
  | low
  | medium
  | high
deriving DecidableEq

/-- A JavaScript `Date`, modelled as its millisecond timestamp. -/
structure Date where
  ms : Int
deriving DecidableEq

/-- The `Task` interface from `src/app/models/task.model.ts`. -/
structure Task where
  id : String
  title : String
  description : String
  completed : Bool
  priority : TaskPriority
  dueDate : Option Date
  createdAt : Date
deriving DecidableEq

/-- The `TaskFilter` interface from `src/app/models/task.model.ts`
(`priority?:` is optional, hence `Option`). -/
structure TaskFilter where
  showCompleted : Bool
  priority : Option TaskPriority
  searchTerm : String
deriving DecidableEq

/-- A `Partial<Task>` record (the `updates` argument of `updateTask`).
Each field is `none` when the key is absent; `dueDate` is optional in
`Task`, so a present key may itself carry `undefined` (`some none`). -/
structure TaskUpdates where
  id : Option String := none
  title : Option String := none
  description : Option String := none
  completed : Option Bool := none
  priority : Option TaskPriority := none
  dueDate : Option (Option Date) := none
  createdAt : Option Date := none
deriving DecidableEq

/-- A `Partial<TaskFilter>` record (the argument of `updateFilter`).
`priority?:` is optional in `TaskFilter`, so a present key may carry
`undefined` (`some none`), which on spread overwrites the current value. -/
structure FilterUpdates where
  showCompleted : Option Bool := none
  priority : Option (Option TaskPriority) := none
  searchTerm : Option String := none
deriving DecidableEq

/-- An `Omit<Task, 'id' | 'createdAt'>` draft, the argument of `addTask`. -/
structure TaskDraft where
  title : String
  description : String
  completed : Bool
  priority : TaskPriority
  dueDate : Option Date
deriving DecidableEq

/-- Store state: the `_tasks` signal and the `_filter` signal. -/
structure StoreState where
  tasks : List Task
  filter : TaskFilter
deriving DecidableEq

/-- Leading-match check on character lists (`needle` matches at the head). -/
def leadMatch : List Char → List Char → Bool
  | [], _ => true
  | _ :: _, [] => false
  | a :: as, b :: bs => a == b && leadMatch as bs

/-- Substring occurrence check on character lists. -/
def containsSub (needle : List Char) : List Char → Bool
  | [] => leadMatch needle []
  | c :: rest => leadMatch needle (c :: rest) || containsSub needle rest

/-- JavaScript `haystack.includes(needle)` on strings. -/
def jsIncludes (haystack needle : String) : Bool :=
  containsSub needle.data haystack.data

/-- The two seed tasks the `_tasks` signal is initialised with; `now` stands
for the construction instant (`new Date()` / `Date.now()`). -/
def initialTasks (now : Date) : List Task :=
  [ { id := "1"
    , title := "Learn Angular 16 Signals"
    , description := "Understand the new signals API"
    , completed := false
    , priority := TaskPriority.high
    , createdAt := now
    , dueDate := some ⟨now.ms + 7 * 24 * 60 * 60 * 1000⟩ }
  , { id := "2"
    , title := "Implement Standalone Components"
    , description := "Create components without NgModule"
    , completed := true
    , priority := TaskPriority.medium
    , createdAt := ⟨now.ms - 24 * 60 * 60 * 1000⟩
    , dueDate := none } ]

/-- The store as created at session start: seed tasks plus the default
filter `{ showCompleted: true, searchTerm: '' }` (no priority key). -/
def initialState (now : Date) : StoreState :=
  { tasks := initialTasks now
  , filter := { showCompleted := true, priority := none, searchTerm := "" } }

/-- The `tasks` computed signal: `computed(() => this._tasks())`. -/
def tasksView (s : StoreState) : List Task :=
  s.tasks

/-- The `filteredTasks` computed signal, with the three predicate clauses
exactly as in the source (`!filter.priority` and `!filter.searchTerm` are
JavaScript truthiness tests: the priority key absent, the term empty). -/
def filteredTasks (s : StoreState) : List Task :=
  let filter := s.filter
  s.tasks.filter fun task =>
    let matchesCompleted := filter.showCompleted || !task.completed
    let matchesPriority :=
      match filter.priority with
      | none => true
      | some p => task.priority == p
    let matchesSearch :=
      filter.searchTerm == "" ||
        jsIncludes task.title.toLower filter.searchTerm.toLower ||
        jsIncludes task.description.toLower filter.searchTerm.toLower
    matchesCompleted && matchesPriority && matchesSearch

/-- The `completedCount` computed signal. -/
def completedCount (s : StoreState) : Nat :=
  (s.tasks.filter fun task => task.completed).length

/-- The `totalCount` computed signal. -/
def totalCount (s : StoreState) : Nat :=
  s.tasks.length

/-- The task built by `addTask`: `{ ...task, id: crypto.randomUUID(),
createdAt: new Date() }`; `newId` stands for the generated UUID and `now`
for the stamping instant. -/
def mkTask (draft : TaskDraft) (newId : String) (now : Date) : Task :=
  { id := newId
  , title := draft.title
  , description := draft.description
  , completed := draft.completed
  , priority := draft.priority
  , dueDate := draft.dueDate
  , createdAt := now }

/-- `addTask`: appends the new task, `[...tasks, newTask]`. -/
def addTask (draft : TaskDraft) (newId : String) (now : Date)
    (s : StoreState) : StoreState :=
  { s with tasks := s.tasks ++ [mkTask draft newId now] }

/-- The spread `{ ...task, ...updates }`: every key present in `updates`
overwrites the corresponding field of `task`; absent keys leave it. -/
def mergeTask (task : Task) (updates : TaskUpdates) : Task :=
  { id := updates.id.getD task.id
  , title := updates.title.getD task.title
  , description := updates.description.getD task.description
  , completed := updates.completed.getD task.completed
  , priority := updates.priority.getD task.priority
  , dueDate := updates.dueDate.getD task.dueDate
  , createdAt := updates.createdAt.getD task.createdAt }

/-- `updateTask`: maps over the list, spreading `updates` over the task
whose id matches. -/
def updateTask (i : String) (updates : TaskUpdates) (s : StoreState) :
    StoreState :=
  { s with tasks := s.tasks.map fun task =>
      if task.id = i then mergeTask task updates else task }

/-- `deleteTask`: keeps the tasks whose id differs. -/
def deleteTask (i : String) (s : StoreState) : StoreState :=
  { s with tasks := s.tasks.filter fun task => task.id ≠ i }

/-- `toggleTask`: flips `completed` on the task whose id matches. -/
def toggleTask (i : String) (s : StoreState) : StoreState :=
  { s with tasks := s.tasks.map fun task =>
      if task.id = i then { task with completed := !task.completed }
      else task }

/-- The spread `{ ...current, ...filter }` of `updateFilter`: present keys
overwrite (a present `priority` key carrying `undefined` overwrites with
`undefined`, i.e. clears the constraint); absent keys retain. -/
def mergeFilter (current : TaskFilter) (p : FilterUpdates) : TaskFilter :=
  { showCompleted := p.showCompleted.getD current.showCompleted
  , priority := p.priority.getD current.priority
  , searchTerm := p.searchTerm.getD current.searchTerm }

/-- `updateFilter`: merges the partial record into the current filter. -/
def updateFilter (p : FilterUpdates) (s : StoreState) : StoreState :=
  { s with filter := mergeFilter s.filter p }

/-- `getFilter`: returns the current filter. -/
def getFilter (s : StoreState) : TaskFilter :=
  s.filter

/-- The partial filter record built by the task-list collaborator
(`TaskListComponent.updateFilter` in `task-list.component.ts`): all three
keys are always present, and `priority` carries
`this.selectedPriority || undefined`, so a cleared select sends a present
key with `undefined`. -/
def taskListFilterArg (searchTerm : String) (showCompleted : Bool)
    (selectedPriority : Option TaskPriority) : FilterUpdates :=
  { searchTerm := some searchTerm
  , showCompleted := some showCompleted
  , priority := some selectedPriority }

/-- One `addTask` call: the caller's draft together with the id generated
by `crypto.randomUUID()` and the `new Date()` stamping instant. -/
structure AddCall where
  draft : TaskDraft
  newId : String
  now : Date
deriving DecidableEq

/-- Apply a finite sequence of `addTask` calls in order. -/
def applyAdds : List AddCall → StoreState → StoreState
  | [], s => s
  | c :: cs, s => applyAdds cs (addTask c.draft c.newId c.now s)

/-- Each generated id is fresh with respect to the store state at the
moment of its add (the uniqueness guarantee of `crypto.randomUUID()`). -/
def FreshAlong : List AddCall → StoreState → Prop
  | [], _ => True
  | c :: cs, s => c.newId ∉ s.tasks.map Task.id ∧
      FreshAlong cs (addTask c.draft c.newId c.now s)

/-- The filter predicate as the specification words it: the conjunction
`matchesCompleted AND matchesPriority AND matchesSearch`, with
`matchesCompleted = showCompleted OR NOT completed`, `matchesPriority`
passing when the constraint is absent or equal to the task's priority, and
`matchesSearch` passing when the term is empty or the case-folded title or
description contains the case-folded term as a substring. -/
def specMatches (filter : TaskFilter) (task : Task) : Bool :=
  (filter.showCompleted || !task.completed) &&
  (match filter.priority with
   | none => true
   | some p => p == task.priority) &&
  (filter.searchTerm == "" ||
    jsIncludes task.title.toLower filter.searchTerm.toLower ||
    jsIncludes task.description.toLower filter.searchTerm.toLower)

/-- A map that keeps every task's `id` keeps the projected id list. -/
theorem map_ids_of_id_preserved (l : List Task) (f : Task → Task)
    (hf : ∀ t, (f t).id = t.id) :
    (l.map f).map Task.id = l.map Task.id := by
  rw [List.map_map]
  exact List.map_congr_left fun t _ => hf t

/-- C2: `filteredTasks()` is exactly the tasks satisfying the three-clause
conjunction of the active filter, and it is an ordered subsequence of
`tasks()` (relative order of survivors preserved). -/
theorem filteredTasks_is_filtered_subsequence (s : StoreState) :
    filteredTasks s = (tasksView s).filter (specMatches s.filter) ∧
    (filteredTasks s).Sublist (tasksView s) := by
  have hpred : filteredTasks s = (tasksView s).filter (specMatches s.filter) := by
    unfold filteredTasks tasksView
    apply List.filter_congr
    intro t _
    unfold specMatches
    cases hp : s.filter.priority with
    | none => simp
    | some p =>
      simp only [hp]
      have hsymm : (t.priority == p) = (p == t.priority) := by
        cases p <;> cases t.priority <;> rfl
      rw [hsymm]
  exact ⟨hpred, hpred ▸ List.filter_sublist (tasksView s)⟩

/-- C3: `addTask(draft)` appends exactly one task, carrying the supplied
title, description, completed, priority and dueDate, the generated id and
the current-time `createdAt`, as the new last element; all previously held
tasks and the filter are untouched, and `totalCount` grows by one. -/
theorem addTask_appends (s : StoreState) (d : TaskDraft) (newId : String)
    (now : Date) :
    (addTask d newId now s).tasks = s.tasks ++
      [{ id := newId
       , title := d.title
       , description := d.description
       , completed := d.completed
       , priority := d.priority
       , dueDate := d.dueDate
       , createdAt := now }] ∧
    (addTask d newId now s).filter = s.filter ∧
    totalCount (addTask d newId now s) = totalCount s + 1 := by
  refine ⟨rfl, rfl, ?_⟩
  simp [addTask, totalCount]

/-- C5: on an id held by no task, `updateTask` (for every partial record),
`deleteTask` and `toggleTask` are silent no-ops: the store state — hence
every derived view — is exactly unchanged, and no error is raised (the
operations are total functions). -/
theorem unknownId_noop (s : StoreState) (i : String)
    (h : ∀ t ∈ s.tasks, t.id ≠ i) :
    (∀ u, updateTask i u s = s) ∧ deleteTask i s = s ∧ toggleTask i s = s := by
  cases s with
  | mk ts f =>
    refine ⟨?_, ?_, ?_⟩
    · intro u
      unfold updateTask
      simp only [StoreState.mk.injEq, and_true]
      have hmap : (ts.map fun task =>
            if task.id = i then mergeTask task u else task) = ts.map id :=
        List.map_congr_left fun t ht => by simp [h t ht]
      rw [hmap, List.map_id]
    · unfold deleteTask
      simp only [StoreState.mk.injEq, and_true]
      rw [List.filter_eq_self]
      intro t ht
      simp [h t ht]
    · unfold toggleTask
      simp only [StoreState.mk.injEq, and_true]
      have hmap : (ts.map fun task =>
            if task.id = i then { task with completed := !task.completed }
            else task) = ts.map id :=
        List.map_congr_left fun t ht => by simp [h t ht]
      rw [hmap, List.map_id]

/-- Witness for C5 at a concrete unknown id on the seeded store. -/
theorem unknownId_noop_witness :
    deleteTask "666" (initialState ⟨0⟩) = initialState ⟨0⟩ :=
  (unknownId_noop (initialState ⟨0⟩) "666" (by decide)).2.1

/-- C6: when every task carrying the argument id has completed flag `b`
(in particular when ids are unique, `b` being the flag of the task with
that id), `toggleTask(id)` produces exactly the state of
`updateTask(id, \x7b completed: !b \x7d)`; when the id is absent the
hypothesis is vacuous and both sides are the same no-op. -/
theorem toggleTask_is_updateTask (s : StoreState) (i : String) (b : Bool)
    (h : ∀ t ∈ s.tasks, t.id = i → t.completed = b) :
    toggleTask i s = updateTask i { completed := some (!b) } s := by
  cases s with
  | mk ts f =>
    unfold toggleTask updateTask
    simp only [StoreState.mk.injEq, and_true]
    apply List.map_congr_left
    intro t ht
    by_cases hid : t.id = i
    · have hb : t.completed = b := h t (by simpa using ht) hid
      simp [hid, mergeTask, hb]
    · simp [hid]

/-- Witness for C6: toggling the incomplete seed task "1" equals updating
it with `completed := true`. -/
theorem toggleTask_is_updateTask_witness :
    toggleTask "1" (initialState ⟨0⟩)
      = updateTask "1" { completed := some true } (initialState ⟨0⟩) :=
  toggleTask_is_updateTask (initialState ⟨0⟩) "1" false (by decide)

/-- C7: `updateFilter(partial)` gives every field named in the partial its
supplied value and keeps every unnamed field at its prior value (tasks are
untouched); in particular a later search-term-only call preserves the
`showCompleted` and `priority` constraints — filters compose. -/
theorem updateFilter_merges (s : StoreState) (p : FilterUpdates) :
    (updateFilter p s).filter.showCompleted
        = p.showCompleted.getD s.filter.showCompleted ∧
    (updateFilter p s).filter.priority = p.priority.getD s.filter.priority ∧
    (updateFilter p s).filter.searchTerm
        = p.searchTerm.getD s.filter.searchTerm ∧
    (updateFilter p s).tasks = s.tasks ∧
    ∀ x,
      (updateFilter { searchTerm := some x }
          (updateFilter p s)).filter.showCompleted
        = (updateFilter p s).filter.showCompleted ∧
      (updateFilter { searchTerm := some x }
          (updateFilter p s)).filter.priority
        = (updateFilter p s).filter.priority :=
  ⟨rfl, rfl, rfl, rfl, fun _ => ⟨rfl, rfl⟩⟩

/-- C9: a partial filter whose `priority` key is present but carries the
explicit absent value (`undefined`) clears the priority constraint rather
than retaining the prior one. -/
theorem updateFilter_priority_cleared (s : StoreState) (p : FilterUpdates)
    (h : p.priority = some none) :
    (updateFilter p s).filter.priority = none := by
  simp [updateFilter, mergeFilter, h]

/-- Witness for C9: the record the task-list collaborator sends when its
priority select is cleared (`selectedPriority || undefined`) resets a
previously set HIGH constraint. -/
theorem updateFilter_priority_cleared_witness :
    (updateFilter (taskListFilterArg "" true none)
        (updateFilter { priority := some (some TaskPriority.high) }
          (initialState ⟨0⟩))).filter.priority = none :=
  updateFilter_priority_cleared _ (taskListFilterArg "" true none) rfl

/-- C1 counterexample: the claim that `updateTask` never alters `id` even
when the partial record supplies one is false — the spread
`\x7b ...task, ...updates \x7d` lets a supplied `id` overwrite: updating
seed task "1" with `id := "99"` changes the stored id list. -/
theorem updateTask_alters_supplied_id :
    ¬ ((updateTask "1" { id := some "99" } (initialState ⟨0⟩)).tasks.map
          Task.id
        = (initialState ⟨0⟩).tasks.map Task.id) := by
  decide

/-- C1 amended: when the partial record does not name `id` or `createdAt`,
`updateTask` leaves both unchanged on the matching task, gives each field
named in the partial its supplied value, and keeps every unnamed field
byte-identical; non-matching tasks are untouched. -/
theorem updateTask_frame_unnamed (s : StoreState) (i : String)
    (u : TaskUpdates) (hid : u.id = none) (hca : u.createdAt = none) :
    (updateTask i u s).tasks = s.tasks.map fun t =>
      if t.id = i then
        { id := t.id
        , title := u.title.getD t.title
        , description := u.description.getD t.description
        , completed := u.completed.getD t.completed
        , priority := u.priority.getD t.priority
        , dueDate := u.dueDate.getD t.dueDate
        , createdAt := t.createdAt }
      else t := by
  unfold updateTask
  apply List.map_congr_left
  intro t _
  by_cases hmatch : t.id = i
  · simp [hmatch, mergeTask, hid, hca]
  · simp [hmatch]

/-- Witness for C1 amended: a title-only update of seed task "1". -/
theorem updateTask_frame_unnamed_witness :
    (updateTask "1" { title := some "X" } (initialState ⟨0⟩)).tasks
      = (initialState ⟨0⟩).tasks.map fun t =>
        if t.id = "1" then
          { id := t.id
          , title := (some "X" : Option String).getD t.title
          , description := (none : Option String).getD t.description
          , completed := (none : Option Bool).getD t.completed
          , priority := (none : Option TaskPriority).getD t.priority
          , dueDate := (none : Option (Option Date)).getD t.dueDate
          , createdAt := t.createdAt }
        else t :=
  updateTask_frame_unnamed (initialState ⟨0⟩) "1" { title := some "X" }
    rfl rfl

/-- C4 counterexample: id uniqueness holds in the seeded state but is NOT
preserved by `updateTask` with an arbitrary partial record — supplying
`id := "2"` to the update of task "1" yields two tasks with id "2". -/
theorem updateTask_breaks_id_uniqueness :
    ((initialState ⟨0⟩).tasks.map Task.id).Nodup ∧
    ¬ (((updateTask "1" { id := some "2" } (initialState ⟨0⟩)).tasks.map
          Task.id).Nodup) := by
  exact ⟨by decide, by decide⟩

/-- C4 amended: id uniqueness holds in the seeded state and is preserved
by `addTask` with a fresh id, by `deleteTask`, `toggleTask` and
`updateFilter` always, and by `updateTask` whenever the partial record
does not supply an id. -/
theorem ids_unique_invariant (now : Date) (s : StoreState)
    (h : (s.tasks.map Task.id).Nodup) :
    ((initialState now).tasks.map Task.id).Nodup ∧
    (∀ d newId stamp, newId ∉ s.tasks.map Task.id →
      ((addTask d newId stamp s).tasks.map Task.id).Nodup) ∧
    (∀ i u, u.id = none →
      ((updateTask i u s).tasks.map Task.id).Nodup) ∧
    (∀ i, ((deleteTask i s).tasks.map Task.id).Nodup) ∧
    (∀ i, ((toggleTask i s).tasks.map Task.id).Nodup) ∧
    (∀ p, ((updateFilter p s).tasks.map Task.id).Nodup) := by
  refine ⟨by simp [initialState, initialTasks], ?_, ?_, ?_, ?_, ?_⟩
  · intro d newId stamp hfresh
    unfold addTask
    simp only [List.map_append, List.nodup_append]
    refine ⟨h, by simp [mkTask], ?_⟩
    intro a ha
    simp only [mkTask, List.map_cons, List.map_nil, List.mem_cons,
      List.not_mem_nil, or_false]
    intro heq
    exact hfresh (heq ▸ ha)
  · intro i u hid
    unfold updateTask
    rw [map_ids_of_id_preserved]
    · exact h
    · intro t
      by_cases hmatch : t.id = i
      · simp [hmatch, mergeTask, hid]
      · simp [hmatch]
  · intro i
    unfold deleteTask
    exact ((List.filter_sublist s.tasks).map Task.id).nodup h
  · intro i
    unfold toggleTask
    rw [map_ids_of_id_preserved]
    · exact h
    · intro t
      by_cases hmatch : t.id = i
      · simp [hmatch]
      · simp [hmatch]
  · intro p
    exact h

/-- Witness for C4 amended: adding a task with the fresh id "3" to the
seeded store keeps ids unique. -/
theorem ids_unique_invariant_witness :
    ((addTask ⟨"T", "", false, TaskPriority.low, none⟩ "3" ⟨5⟩
        (initialState ⟨0⟩)).tasks.map Task.id).Nodup :=
  (ids_unique_invariant ⟨0⟩ (initialState ⟨0⟩) (by decide)).2.1
    ⟨"T", "", false, TaskPriority.low, none⟩ "3" ⟨5⟩ (by decide)

/-- C10: `updateTask` and `toggleTask` preserve the length of the task
sequence and keep every task whose id differs from the argument unchanged
at its position (for every id, present or not); `deleteTask` keeps the
survivors in their prior relative order and leaves every task whose id
differs unchanged and present. -/
theorem per_task_frame (s : StoreState) (i : String) (u : TaskUpdates) :
    (updateTask i u s).tasks.length = s.tasks.length ∧
    (toggleTask i s).tasks.length = s.tasks.length ∧
    (∀ (k : Nat) (t : Task), s.tasks[k]? = some t → t.id ≠ i →
      (updateTask i u s).tasks[k]? = some t) ∧
    (∀ (k : Nat) (t : Task), s.tasks[k]? = some t → t.id ≠ i →
      (toggleTask i s).tasks[k]? = some t) ∧
    (deleteTask i s).tasks.Sublist s.tasks ∧
    (∀ t ∈ s.tasks, t.id ≠ i → t ∈ (deleteTask i s).tasks) := by
  refine ⟨by simp [updateTask], by simp [toggleTask], ?_, ?_, ?_, ?_⟩
  · intro k t hk hne
    unfold updateTask
    simp only [List.getElem?_map, hk, Option.map_some]
    simp [hne]
  · intro k t hk hne
    unfold toggleTask
    simp only [List.getElem?_map, hk, Option.map_some]
    simp [hne]
  · exact List.filter_sublist s.tasks
  · intro t ht hne
    unfold deleteTask
    simp [List.mem_filter, ht, hne]

/-- Witness for C10: a title-only update aimed at task "1" leaves seed
task "2" unchanged at position 1. -/
theorem per_task_frame_witness :
    (updateTask "1" { title := some "X" } (initialState ⟨0⟩)).tasks[1]?
      = some
        { id := "2"
        , title := "Implement Standalone Components"
        , description := "Create components without NgModule"
        , completed := true
        , priority := TaskPriority.medium
        , dueDate := none
        , createdAt := ⟨-86400000⟩ } :=
  (per_task_frame (initialState ⟨0⟩) "1" { title := some "X" }).2.2.1 1 _
    (by decide) (by decide)

/-- Each add grows `totalCount` by exactly one, so a sequence of adds
grows it by its length. -/
theorem applyAdds_totalCount (calls : List AddCall) (s : StoreState) :
    totalCount (applyAdds calls s) = totalCount s + calls.length := by
  induction calls generalizing s with
  | nil => rfl
  | cons c cs ih =>
    rw [applyAdds, ih]
    simp [addTask, totalCount]
    omega

/-- Under freshness of each generated id, the ids of a sequence of adds
are pairwise distinct and all absent from the starting state. -/
theorem freshAlong_ids_nodup (calls : List AddCall) (s : StoreState)
    (h : FreshAlong calls s) :
    (calls.map AddCall.newId).Nodup ∧
    ∀ c ∈ calls, c.newId ∉ s.tasks.map Task.id := by
  induction calls generalizing s with
  | nil => simp
  | cons c cs ih =>
    obtain ⟨h1, h2⟩ := h
    obtain ⟨ihn, ihm⟩ := ih (addTask c.draft c.newId c.now s) h2
    have hids : ∀ x ∈ cs, x.newId ∉ s.tasks.map Task.id ∧
        x.newId ≠ c.newId := by
      intro x hx
      have := ihm x hx
      simp only [addTask, mkTask, List.map_append, List.map_cons,
        List.map_nil, List.mem_append, List.mem_cons, List.not_mem_nil,
        or_false, not_or] at this
      exact ⟨this.1, this.2⟩
    refine ⟨?_, ?_⟩
    · simp only [List.map_cons, List.nodup_cons]
      refine ⟨?_, ihn⟩
      intro hmem
      obtain ⟨x, hx, hxeq⟩ := List.mem_map.mp hmem
      exact (hids x hx).2 hxeq
    · intro x hx
      rcases List.mem_cons.mp hx with hx1 | hx2
      · exact hx1 ▸ h1
      · exact (hids x hx2).1

/-- C8 counterexample: the store starts seeded with two fixture tasks, so
after zero adds `totalCount()` is 2, not the number of adds (0). -/
theorem totalCount_counts_seed_tasks :
    totalCount (applyAdds [] (initialState ⟨0⟩))
      ≠ ([] : List AddCall).length := by
  decide

/-- C8 amended: after any finite sequence of adds on the session-start
store, `totalCount()` equals the seed count (2) plus the number of adds
(every add succeeds), and — each generated id being fresh at the moment of
its add — the assigned ids are pairwise distinct. -/
theorem applyAdds_count_and_distinct (now : Date) (calls : List AddCall)
    (h : FreshAlong calls (initialState now)) :
    totalCount (applyAdds calls (initialState now)) = 2 + calls.length ∧
    (calls.map AddCall.newId).Nodup := by
  refine ⟨?_, (freshAlong_ids_nodup calls (initialState now) h).1⟩
  rw [applyAdds_totalCount]
  rfl

/-- Witness for C8 amended: two adds with fresh ids "3" and "4". -/
theorem applyAdds_count_and_distinct_witness :
    totalCount (applyAdds
        [ ⟨⟨"A", "", false, TaskPriority.low, none⟩, "3", ⟨1⟩⟩
        , ⟨⟨"B", "", true, TaskPriority.high, none⟩, "4", ⟨2⟩⟩ ]
        (initialState ⟨0⟩)) = 2 + 2 ∧
    ([ (⟨⟨"A", "", false, TaskPriority.low, none⟩, "3", ⟨1⟩⟩ : AddCall)
     , ⟨⟨"B", "", true, TaskPriority.high, none⟩, "4", ⟨2⟩⟩ ].map
        AddCall.newId).Nodup :=
  applyAdds_count_and_distinct ⟨0⟩ _ ⟨by decide, by decide, trivial⟩

end TaskStore
